import Mathlib

/-!
Shallow embedding of the synthlab Signal Synthesis Engine
(src/synth/types.ts and src/synth/engine.ts, the reverb-equipped version in
src/unnamed/part_015, plus the DrumEngine of part_015 lines 700-880).

JS numbers are modelled as rationals (ℚ); the two transcendental note-math
functions are modelled over ℝ.  JS objects whose identity matters (the nested
`envelope` record of the configuration) are modelled through an explicit heap
of envelope objects, with `Nat` references; every other configuration field is
a JS primitive and is copied by value, exactly as the spread operator does.
Fields that can be `undefined` at runtime are modelled as `Option`.
-/

namespace SynthLab

/-- Type `WaveformType` from src/synth/types.ts. -/
inductive WaveformType
  | sine
  | square
  | sawtooth
  | triangle
deriving DecidableEq, Repr

/-- Type `FilterType` from src/synth/types.ts. -/
inductive FilterType
  | lowpass
  | highpass
  | bandpass
deriving DecidableEq, Repr

/-- A JS envelope object (`ADSREnvelope`).  Each field is `Option` because a
caller-supplied envelope object may omit fields (the chat tool layer builds
such partial objects), and because the engine's own stored envelope can end up
with `undefined` fields after `setConfig` (see the C1 analysis below). -/
structure EnvObj where
  attack : Option ℚ
  decay : Option ℚ
  sustain : Option ℚ
  release : Option ℚ
deriving DecidableEq, Repr

/-- JS object spread `{ ...a, ...b }` on envelope objects: fields present in
`b` win, fields absent in `b` are taken from `a`. -/
def envMerge (a b : EnvObj) : EnvObj :=
  { attack := b.attack.orElse fun _ => a.attack
    decay := b.decay.orElse fun _ => a.decay
    sustain := b.sustain.orElse fun _ => a.sustain
    release := b.release.orElse fun _ => a.release }

/-- Constant `DEFAULT_CONFIG.envelope` from src/synth/types.ts. -/
def defaultEnvelope : EnvObj :=
  { attack := some 0.01, decay := some 0.1, sustain := some 0.7, release := some 0.3 }

/-- The engine's `SynthConfig` record (part_015, the reverb-equipped version:
waveform, gain, filter fields, nested envelope, flat reverb fields).  All
fields except `envelope` hold JS primitives; `envelope` is a reference into
the heap of envelope objects. -/
structure ConfigObj where
  waveform : WaveformType
  gain : ℚ
  filterType : FilterType
  filterCutoff : ℚ
  filterResonance : ℚ
  envelope : Nat
  reverbMix : ℚ
  reverbDecay : ℚ
  reverbDamping : ℚ
deriving DecidableEq, Repr

/-- An argument to `setConfig` (TS type `Partial<SynthConfig>`): every
top-level field optional; the envelope, when present, is a caller-built
envelope object that may itself be partial. -/
structure PartialSynthConfig where
  waveform : Option WaveformType := none
  gain : Option ℚ := none
  filterType : Option FilterType := none
  filterCutoff : Option ℚ := none
  filterResonance : Option ℚ := none
  envelope : Option EnvObj := none
  reverbMix : Option ℚ := none
  reverbDecay : Option ℚ := none
  reverbDamping : Option ℚ := none
deriving DecidableEq, Repr

/-- Web Audio `AudioParam` automation events used by the voice envelopes:
`setValueAtTime` and `linearRampToValueAtTime`. -/
inductive AutoEvent
  | setValue (v t : ℚ)
  | linearRamp (v t : ℚ)
deriving DecidableEq, Repr

/-- Scheduled time of an automation event. -/
def AutoEvent.time : AutoEvent → ℚ
  | .setValue _ t => t
  | .linearRamp _ t => t

/-- Method `cancelScheduledValues(t)`: removes every event scheduled at time ≥ t. -/
def cancelFrom (t : ℚ) (evs : List AutoEvent) : List AutoEvent :=
  evs.filter fun e => decide (e.time < t)

/-- Computed value of an automation timeline at time `t`, starting from value
`v0` held since time `t0`: `setValue` steps, `linearRamp` interpolates
linearly from the previous event.  Events are kept in scheduling order. -/
def valueAt (v0 t0 : ℚ) : List AutoEvent → ℚ → ℚ
  | [], _ => v0
  | .setValue v te :: rest, t =>
      if t < te then v0 else valueAt v te rest t
  | .linearRamp v te :: rest, t =>
      if t < te then
        (if t ≤ t0 then v0 else v0 + (v - v0) * (t - t0) / (te - t0))
      else valueAt v te rest t

/-- An `OscillatorNode` created for a voice. -/
structure OscNode where
  waveform : WaveformType
  frequency : ℚ
  startTime : Option ℚ
  stopTime : Option ℚ
deriving DecidableEq, Repr

/-- The per-voice node pair `{ oscillator, gain }`: the oscillator and its
envelope gain (base value plus scheduled automation). -/
structure VoiceNodes where
  osc : OscNode
  gainBase : ℚ
  gainEvents : List AutoEvent
deriving DecidableEq, Repr

/-- Call `activeVoices.get(k)` on the registry `Map<number, …>`: first entry with
the key (a real `Map` has unique keys). -/
def mapGet : List (ℚ × Nat) → ℚ → Option Nat
  | [], _ => none
  | e :: rest, k => if e.1 = k then some e.2 else mapGet rest k

/-- Call `activeVoices.set(k, v)`: replace in place when the key exists, append
otherwise (JS `Map.set` insertion-order semantics). -/
def mapSet : List (ℚ × Nat) → ℚ → Nat → List (ℚ × Nat)
  | [], k, v => [(k, v)]
  | e :: rest, k, v => if e.1 = k then (k, v) :: rest else e :: mapSet rest k v

/-- Call `activeVoices.delete(k)`: removes the entry with key `k` (removing every
matching entry; identical on the duplicate-free lists a `Map` produces). -/
def mapDelete : List (ℚ × Nat) → ℚ → List (ℚ × Nat)
  | [], _ => []
  | e :: rest, k => if e.1 = k then mapDelete rest k else e :: mapDelete rest k

/-- Number of registry entries holding key `k`. -/
def countKey : List (ℚ × Nat) → ℚ → Nat
  | [], _ => 0
  | e :: rest, k => (if e.1 = k then 1 else 0) + countKey rest k

/-- The whole `SynthEngine` instance state (part_015 lines 1061-1100):
`audioContext` and all the node fields it guards are created together in
`initialize`, so a single `isInit` flag stands for their non-nullness,
and the node parameter fields are `Option`s that are `none` before that.
`currentTime` is `audioContext.currentTime`, advanced externally by the audio
clock.  `heap` holds every envelope object allocated so far; `nodes` holds
every oscillator/gain voice pair ever created (an audio node keeps playing
after its registry entry is dropped); `voices` is the `activeVoices` map,
keyed by the caller-supplied numeric note id. -/
structure EngineState where
  isInit : Bool
  currentTime : ℚ
  heap : List EnvObj
  config : ConfigObj
  masterGainValue : Option ℚ
  filterTypeValue : Option FilterType
  filterCutoffValue : Option ℚ
  filterResonanceValue : Option ℚ
  reverbDryGain : Option ℚ
  reverbWetGain : Option ℚ
  reverbMixScale : Option ℚ
  reverbDelayTimes : List ℚ
  reverbFeedbacks : List ℚ
  reverbDampingFreqs : List ℚ
  nodes : List VoiceNodes
  voices : List (ℚ × Nat)
deriving DecidableEq, Repr

/-- A freshly constructed `SynthEngine`: `config = { ...DEFAULT_CONFIG }`,
no audio context, empty registry. -/
def initialState : EngineState :=
  { isInit := false
    currentTime := 0
    heap := [defaultEnvelope]
    config :=
      { waveform := .sawtooth
        gain := 0.3
        filterType := .lowpass
        filterCutoff := 2000
        filterResonance := 1
        envelope := 0
        reverbMix := 0.2
        reverbDecay := 0.5
        reverbDamping := 0.3 }
    masterGainValue := none
    filterTypeValue := none
    filterCutoffValue := none
    filterResonanceValue := none
    reverbDryGain := none
    reverbWetGain := none
    reverbMixScale := none
    reverbDelayTimes := []
    reverbFeedbacks := []
    reverbDampingFreqs := []
    nodes := []
    voices := [] }

/-- The four reverb delay times created in `initialize`. -/
def delayTimes : List ℚ := [0.029, 0.037, 0.043, 0.053]

/-- Method `SynthEngine.initialize` (part_015 lines 1090-1165): returns unchanged if
already initialized; otherwise creates the master gain, filter, analyser and
the four reverb delay lines, seeding every node parameter from the stored
configuration (`feedbackGain = 0.3 + reverbDecay*0.65`,
`dampingFreq = 20000 - reverbDamping*18000`, dry `1-mix`, wet `mix`, fixed
wet-bus attenuation `0.25`). -/
def initEngine (s : EngineState) : EngineState :=
  if s.isInit then s
  else
    let feedbackGain := 0.3 + s.config.reverbDecay * 0.65
    let dampingFreq := 20000 - s.config.reverbDamping * 18000
    { s with
      isInit := true
      masterGainValue := some s.config.gain
      filterTypeValue := some s.config.filterType
      filterCutoffValue := some s.config.filterCutoff
      filterResonanceValue := some s.config.filterResonance
      reverbDryGain := some (1 - s.config.reverbMix)
      reverbWetGain := some s.config.reverbMix
      reverbMixScale := some 0.25
      reverbDelayTimes := delayTimes
      reverbFeedbacks := delayTimes.map fun _ => feedbackGain
      reverbDampingFreqs := delayTimes.map fun _ => dampingFreq }

/-- Method `SynthEngine.getConfig`: `return { ...this.config }` — a shallow copy.
Every top-level field is a primitive and is copied by value, so the copy is
the record value itself; the `envelope` field is an object reference and the
copy shares it with the engine. -/
def getConfig (s : EngineState) : ConfigObj := s.config

/-- The envelope object the engine's stored configuration currently points
at (what `this.config.envelope` dereferences to). -/
def currentEnv (s : EngineState) : EnvObj :=
  (s.heap.get? s.config.envelope).getD { attack := none, decay := none, sustain := none, release := none }

/-- A caller assigning `<envObj>.attack = v` on an envelope object obtained
from the engine (for instance `getConfig().envelope`): a heap write through
the shared reference. -/
def callerSetEnvAttack (s : EngineState) (r : Nat) (v : ℚ) : EngineState :=
  match s.heap.get? r with
  | some e => { s with heap := s.heap.set r { e with attack := some v } }
  | none => s

/-- Method `SynthEngine.setConfig` (part_015 lines 1235-1270), step by step:
1. `this.config = { ...this.config, ...config }` — top-level shallow merge;
   when the caller supplies an envelope object, the merged record's
   `envelope` field is a reference to that very object (we allocate the
   caller's object on the heap to give it an address);
2. master gain and filter node parameters are refreshed when the nodes exist;
3. dry/wet gains are refreshed when the nodes exist and `reverbMix` was given;
4. every feedback gain is rewritten when `reverbDecay` was given;
5. every damping cutoff is rewritten when `reverbDamping` was given;
6. `if (config.envelope) this.config.envelope = { ...this.config.envelope,
   ...config.envelope }` — but at this point `this.config.envelope` IS the
   caller's object (step 1 installed the reference), so the merge reads the
   caller's partial rather than the previous envelope, and allocates a fresh
   object holding just the caller's fields. -/
def setConfig (s : EngineState) (p : PartialSynthConfig) : EngineState :=
  let heap1 := match p.envelope with
    | some pe => s.heap ++ [pe]
    | none => s.heap
  let envRef1 := match p.envelope with
    | some _ => s.heap.length
    | none => s.config.envelope
  let cfg1 : ConfigObj :=
    { waveform := p.waveform.getD s.config.waveform
      gain := p.gain.getD s.config.gain
      filterType := p.filterType.getD s.config.filterType
      filterCutoff := p.filterCutoff.getD s.config.filterCutoff
      filterResonance := p.filterResonance.getD s.config.filterResonance
      envelope := envRef1
      reverbMix := p.reverbMix.getD s.config.reverbMix
      reverbDecay := p.reverbDecay.getD s.config.reverbDecay
      reverbDamping := p.reverbDamping.getD s.config.reverbDamping }
  let s1 := { s with heap := heap1, config := cfg1 }
  let s2 := if s1.isInit then
      { s1 with
        masterGainValue := some cfg1.gain
        filterTypeValue := some cfg1.filterType
        filterCutoffValue := some cfg1.filterCutoff
        filterResonanceValue := some cfg1.filterResonance }
    else s1
  let s3 := if s2.isInit && p.reverbMix.isSome then
      { s2 with
        reverbDryGain := some (1 - cfg1.reverbMix)
        reverbWetGain := some cfg1.reverbMix }
    else s2
  let s4 := if p.reverbDecay.isSome then
      { s3 with reverbFeedbacks := s3.reverbFeedbacks.map fun _ => 0.3 + cfg1.reverbDecay * 0.65 }
    else s3
  let s5 := if p.reverbDamping.isSome then
      { s4 with reverbDampingFreqs := s4.reverbDampingFreqs.map fun _ => 20000 - cfg1.reverbDamping * 18000 }
    else s4
  match p.envelope with
  | some pe =>
      let cur := (s5.heap.get? s5.config.envelope).getD pe
      { s5 with
        heap := s5.heap ++ [envMerge cur pe]
        config := { s5.config with envelope := s5.heap.length } }
  | none => s5

/-- Method `SynthEngine.noteOff` (part_015 lines 1208-1221): no-op when the id holds
no voice or the engine is uninitialized; otherwise cancels the voice gain's
pending events, captures the computed gain value at the current time, ramps
linearly from it to 0 over `release` seconds, schedules the oscillator stop
at `now + release + 0.01`, and deletes the registry entry synchronously.
(An `undefined` envelope field would be `NaN` arithmetic in JS; the theorems
below only visit states whose envelope fields are defined, so the `getD 0`
placeholders are never the value actually used.)

The node updates performed on the released voice (part_015 lines 1214-1219)
are factored out as `releasedNode` below: cancel pending events from `now`,
capture the computed value, pin it with `setValueAtTime`, ramp linearly to 0
over `rel` seconds, and schedule the oscillator stop at `now + rel + 0.01`. -/
def releasedNode (nd : VoiceNodes) (now rel : ℚ) : VoiceNodes :=
  let cancelled := cancelFrom now nd.gainEvents
  let curVal := valueAt nd.gainBase 0 cancelled now
  { nd with
    gainEvents := cancelled ++ [AutoEvent.setValue curVal now, AutoEvent.linearRamp 0 (now + rel)]
    osc := { nd.osc with stopTime := some (now + rel + 0.01) } }

def noteOff (s : EngineState) (noteId : ℚ) : EngineState :=
  match mapGet s.voices noteId with
  | none => s
  | some idx =>
    if !s.isInit then s
    else
      match s.nodes.get? idx with
      | none => s
      | some nd =>
        let now := s.currentTime
        let rel := (currentEnv s).release.getD 0
        { s with
          nodes := s.nodes.set idx (releasedNode nd now rel)
          voices := mapDelete s.voices noteId }

/-- The oscillator/gain pair `noteOn` constructs (part_015 lines 1183-1199),
reading state `s0` (the state after the inner `noteOff`): an oscillator with
the configured waveform at the requested frequency, started now, and a gain
scheduled `setValueAtTime(0, now)`, then linear ramps to 1 at `now + attack`
and to `sustain` at `now + attack + decay`. -/
def freshVoice (s0 : EngineState) (frequency : ℚ) : VoiceNodes :=
  { osc :=
      { waveform := s0.config.waveform
        frequency := frequency
        startTime := some s0.currentTime
        stopTime := none }
    gainBase := 0
    gainEvents :=
      [AutoEvent.setValue 0 s0.currentTime,
       AutoEvent.linearRamp 1 (s0.currentTime + (currentEnv s0).attack.getD 0),
       AutoEvent.linearRamp ((currentEnv s0).sustain.getD 0)
         (s0.currentTime + (currentEnv s0).attack.getD 0 + (currentEnv s0).decay.getD 0)] }

/-- Method `SynthEngine.noteOn` (part_015 lines 1172-1203): warns and returns when
uninitialized; otherwise first calls `noteOff(noteId)`, then creates the
fresh voice above, starts it, and registers it under `noteId` (replacing in
the `Map` whatever the inner `noteOff` might have left). -/
def noteOn (s : EngineState) (frequency : ℚ) (noteId : ℚ) : EngineState :=
  if !s.isInit then s
  else
    let s0 := noteOff s noteId
    { s0 with
      nodes := s0.nodes ++ [freshVoice s0 frequency]
      voices := mapSet s0.voices noteId s0.nodes.length }

/-- Call `noteOn` with the defaulted second parameter
(`noteOn(frequency: number, noteId: number = frequency)`). -/
def noteOnDefault (s : EngineState) (frequency : ℚ) : EngineState :=
  noteOn s frequency frequency

/-- Method `SynthEngine.panic` (part_015 lines 1226-1230): `noteOff` for every key of
`activeVoices`.  The JS loop iterates the live map, but `noteOff` only ever
deletes the key being visited, so iterating the snapshot of keys is the same
traversal. -/
def panic (s : EngineState) : EngineState :=
  (s.voices.map Prod.fst).foldl noteOff s

/-- The audio clock advancing between engine calls (the engine never moves
`currentTime` itself). -/
def tick (s : EngineState) (dt : ℚ) : EngineState :=
  { s with currentTime := s.currentTime + dt }

/-- Amplitude contributed by one voice's generator chain at time `t`: zero
before start and from the scheduled stop on, the computed envelope-gain value
otherwise (the oscillator itself has unit amplitude). -/
def VoiceNodes.amplitudeAt (nd : VoiceNodes) (t : ℚ) : ℚ :=
  match nd.osc.startTime with
  | none => 0
  | some st =>
    if t < st then 0
    else
      match nd.osc.stopTime with
      | some sp => if sp ≤ t then 0 else valueAt nd.gainBase 0 nd.gainEvents t
      | none => valueAt nd.gainBase 0 nd.gainEvents t

/-- Well-formedness of the index encoding: every registry entry points at an
allocated voice-node pair.  (In JS the registry stores the nodes themselves,
so this holds in every reachable state by construction.) -/
def WF (s : EngineState) : Prop :=
  ∀ e ∈ s.voices, e.2 < s.nodes.length

instance (s : EngineState) : Decidable (WF s) :=
  List.decidableBAll _ s.voices

/-- Web Audio `AudioParam` automation events used by the drum recipes:
`setValueAtTime` and `exponentialRampToValueAtTime`.  (No theorem samples an
exponential ramp mid-flight, so its curve is carried structurally only.) -/
inductive DrumEvent
  | setValue (v t : ℚ)
  | expRamp (v t : ℚ)
deriving DecidableEq, Repr

/-- One generator chain of a drum hit: an oscillator (or noise source) with a
frequency parameter and an amplitude gain, each carrying its schedule. -/
structure DrumOsc where
  waveform : WaveformType
  freqBase : Option ℚ
  freqEvents : List DrumEvent
  gainEvents : List DrumEvent
  startTime : ℚ
  stopTime : Option ℚ
deriving DecidableEq, Repr

/-- The two generator chains `DrumEngine.playKick` creates. -/
structure KickNodes where
  body : DrumOsc
  click : DrumOsc
deriving DecidableEq, Repr

/-- Method `DrumEngine.playKick` (part_015 lines 741-779), triggered at audio-clock
time `now`: a sine body whose frequency is set to 150 Hz and ramped
exponentially to 50 Hz by `now + 0.05`, amplitude set to 1 and ramped
exponentially down to 0.01 by `now + 0.4`, stopped at `now + 0.4`; layered
with a square click at 200 Hz, amplitude set to 0.3 and ramped exponentially
to 0.01 by `now + 0.01`, stopped at `now + 0.02`. -/
def playKick (now : ℚ) : KickNodes :=
  { body :=
      { waveform := .sine
        freqBase := none
        freqEvents := [DrumEvent.setValue 150 now, DrumEvent.expRamp 50 (now + 0.05)]
        gainEvents := [DrumEvent.setValue 1 now, DrumEvent.expRamp 0.01 (now + 0.4)]
        startTime := now
        stopTime := some (now + 0.4) }
    click :=
      { waveform := .square
        freqBase := some 200
        freqEvents := []
        gainEvents := [DrumEvent.setValue 0.3 now, DrumEvent.expRamp 0.01 (now + 0.01)]
        startTime := now
        stopTime := some (now + 0.02) } }

/-- The level a drum generator's gain is initially set to (its
`setValueAtTime` head), i.e. the envelope's peak before the decay ramp. -/
def peakLevel : List DrumEvent → ℚ
  | DrumEvent.setValue v _ :: _ => v
  | _ => 0

/-- Function `midiToFrequency` (part_015 lines 1011-1013):
`440 * Math.pow(2, (midiNote - 69) / 12)`, over ℝ since the exponent is
fractional. -/
noncomputable def midiToFrequency (midiNote : ℝ) : ℝ :=
  440 * (2 : ℝ) ^ ((midiNote - 69) / 12)

/-- Modelled from the spec: `frequencyToApproxMidi` is named only in spec.md
§8 and has no definition anywhere under src/.  Modelled as the inverse
mapping the spec's round-trip sentence describes: the (approximate, hence
real-valued) MIDI number of a frequency, `69 + 12·log₂(f/440)`. -/
noncomputable def frequencyToApproxMidi (freq : ℝ) : ℝ :=
  69 + 12 * Real.logb 2 (freq / 440)

/-! ### Concrete scenarios -/

/-- An engine initialized with the default configuration. -/
def readyEngine : EngineState := initEngine initialState

/-- The `setConfig` argument `{ envelope: { attack: 0.2 } }` — a partial with
only the envelope's attack, the shape the chat tool layer really builds. -/
def attackOnlyUpdate : PartialSynthConfig :=
  { envelope := some { attack := some 0.2, decay := none, sustain := none, release := none } }

/-- Retrigger scenario: `noteOn(440, 69)` at time 0. -/
def retrigFirst : EngineState := noteOn readyEngine 440 69

/-- Continuation of the scenario: `noteOn(440, 69)` again at time 0.1, while the first voice is
still in its decay phase. -/
def retrigSecond : EngineState := noteOn (tick retrigFirst 0.1) 440 69

/-- Two concurrently sounding voices (ids 69 and 71). -/
def twoVoices : EngineState := noteOn (noteOn readyEngine 440 69) 550 71

/-- The voice node the first `noteOn` of the retrigger scenario creates:
sawtooth at 440 Hz started at time 0, gain scheduled 0 → 1 over the default
0.01 s attack, then down to 0.7 by 0.11 s. -/
def firstVoiceNode : VoiceNodes :=
  { osc :=
      { waveform := .sawtooth, frequency := 440, startTime := some 0, stopTime := none }
    gainBase := 0
    gainEvents :=
      [AutoEvent.setValue 0 0, AutoEvent.linearRamp 1 0.01, AutoEvent.linearRamp 0.7 0.11] }

/-- The reverb parameter mapping of C7: once the engine is initialized, every
delay line's feedback gain is exactly `0.3 + reverbDecay*0.65`, every damping
cutoff exactly `20000 - reverbDamping*18000` Hz (uniform across the lines),
the dry gain is `1 - reverbMix` and the wet gain is `reverbMix`. -/
def ReverbInv (s : EngineState) : Prop :=
  s.isInit = true →
    (s.reverbFeedbacks = delayTimes.map (fun _ => 0.3 + s.config.reverbDecay * 0.65) ∧
     s.reverbDampingFreqs = delayTimes.map (fun _ => 20000 - s.config.reverbDamping * 18000) ∧
     s.reverbDryGain = some (1 - s.config.reverbMix) ∧
     s.reverbWetGain = some s.config.reverbMix)

/-! ### Registry-map lemmas -/

theorem mapGet_eq_none_iff (l : List (ℚ × Nat)) (k : ℚ) :
    mapGet l k = none ↔ ∀ e ∈ l, e.1 ≠ k := by
  induction l with
  | nil => simp [mapGet]
  | cons e rest ih =>
    by_cases h : e.1 = k <;> simp [mapGet, h, ih]

theorem mapGet_some_mem {l : List (ℚ × Nat)} {k : ℚ} {v : Nat}
    (h : mapGet l k = some v) : (k, v) ∈ l := by
  induction l with
  | nil => simp [mapGet] at h
  | cons e rest ih =>
    by_cases he : e.1 = k
    · simp only [mapGet, he, if_true, Option.some.injEq] at h
      have hkv : (k, v) = e := by rw [← he, ← h]
      rw [hkv]
      exact List.mem_cons_self _ _
    · simp only [mapGet, he, if_neg, not_false_iff] at h
      exact List.mem_cons_of_mem _ (ih h)

theorem mem_mapDelete {l : List (ℚ × Nat)} {k : ℚ} {e : ℚ × Nat}
    (h : e ∈ mapDelete l k) : e ∈ l ∧ e.1 ≠ k := by
  induction l with
  | nil => simp [mapDelete] at h
  | cons x rest ih =>
    by_cases hx : x.1 = k
    · simp only [mapDelete, hx, if_pos] at h
      exact ⟨List.mem_cons_of_mem _ (ih h).1, (ih h).2⟩
    · simp only [mapDelete, hx, if_neg, not_false_iff, List.mem_cons] at h
      rcases h with rfl | h
      · exact ⟨List.mem_cons_self _ _, hx⟩
      · exact ⟨List.mem_cons_of_mem _ (ih h).1, (ih h).2⟩

theorem mapGet_mapDelete_self (l : List (ℚ × Nat)) (k : ℚ) :
    mapGet (mapDelete l k) k = none := by
  rw [mapGet_eq_none_iff]
  exact fun e he => (mem_mapDelete he).2

theorem mapDelete_eq_self {l : List (ℚ × Nat)} {k : ℚ}
    (h : ∀ e ∈ l, e.1 ≠ k) : mapDelete l k = l := by
  induction l with
  | nil => rfl
  | cons e rest ih =>
    have he : e.1 ≠ k := h e (List.mem_cons_self _ _)
    simp only [mapDelete, he, if_neg, not_false_iff]
    rw [ih fun x hx => h x (List.mem_cons_of_mem _ hx)]

theorem countKey_mapDelete_self (l : List (ℚ × Nat)) (k : ℚ) :
    countKey (mapDelete l k) k = 0 := by
  induction l with
  | nil => rfl
  | cons e rest ih =>
    by_cases he : e.1 = k <;> simp [mapDelete, countKey, he, ih]

theorem mapSet_of_none {l : List (ℚ × Nat)} {k : ℚ} (v : Nat)
    (h : mapGet l k = none) : mapSet l k v = l ++ [(k, v)] := by
  induction l with
  | nil => rfl
  | cons e rest ih =>
    by_cases he : e.1 = k
    · simp [mapGet, he] at h
    · simp only [mapGet, he, if_neg, not_false_iff] at h
      simp [mapSet, he, ih h]

theorem countKey_append (l l' : List (ℚ × Nat)) (k : ℚ) :
    countKey (l ++ l') k = countKey l k + countKey l' k := by
  induction l with
  | nil => simp [countKey]
  | cons e rest ih => simp [countKey, ih]; ring

theorem mapGet_mapSet_self (l : List (ℚ × Nat)) (k : ℚ) (v : Nat) :
    mapGet (mapSet l k v) k = some v := by
  induction l with
  | nil => simp [mapSet, mapGet]
  | cons e rest ih =>
    by_cases he : e.1 = k <;> simp [mapSet, mapGet, he, ih]

theorem mem_mapSet {l : List (ℚ × Nat)} {k : ℚ} {v : Nat} {e : ℚ × Nat}
    (h : e ∈ mapSet l k v) : e ∈ l ∨ e = (k, v) := by
  induction l with
  | nil => simp [mapSet] at h; right; exact h
  | cons x rest ih =>
    by_cases hx : x.1 = k
    · simp only [mapSet, hx, if_pos, List.mem_cons] at h
      rcases h with rfl | h
      · right; rfl
      · left; exact List.mem_cons_of_mem _ h
    · simp only [mapSet, hx, if_neg, not_false_iff, List.mem_cons] at h
      rcases h with rfl | h
      · left; exact List.mem_cons_self _ _
      · rcases ih h with h' | h'
        · left; exact List.mem_cons_of_mem _ h'
        · right; exact h'

theorem countKey_one_of_set_delete (l : List (ℚ × Nat)) (k : ℚ) (v : Nat) :
    countKey (mapSet (mapDelete l k) k v) k = 1 := by
  rw [mapSet_of_none v (mapGet_mapDelete_self l k), countKey_append,
    countKey_mapDelete_self]
  simp [countKey]

/-! ### Frame lemmas for `noteOff` / `noteOn` / `panic` -/

theorem noteOff_isInit (s : EngineState) (id : ℚ) :
    (noteOff s id).isInit = s.isInit := by
  unfold noteOff
  split
  · rfl
  · split
    · rfl
    · split
      · rfl
      · rfl

theorem noteOff_nodes_length (s : EngineState) (id : ℚ) :
    (noteOff s id).nodes.length = s.nodes.length := by
  unfold noteOff
  split
  · rfl
  · split
    · rfl
    · split
      · rfl
      · simp [List.length_set]

theorem noteOff_not_found (s : EngineState) (id : ℚ)
    (h : mapGet s.voices id = none) : noteOff s id = s := by
  unfold noteOff
  rw [h]

theorem noteOff_uninit (s : EngineState) (id : ℚ) (h : s.isInit = false) :
    noteOff s id = s := by
  unfold noteOff
  split
  · rfl
  · simp [h]

theorem noteOff_found (s : EngineState) (id : ℚ) (idx : Nat) (nd : VoiceNodes)
    (hinit : s.isInit = true) (hget : mapGet s.voices id = some idx)
    (hnd : s.nodes.get? idx = some nd) :
    noteOff s id =
      { s with
        nodes := s.nodes.set idx
          (releasedNode nd s.currentTime ((currentEnv s).release.getD 0))
        voices := mapDelete s.voices id } := by
  unfold noteOff
  rw [hget]
  simp only [hinit, Bool.not_true, Bool.false_eq_true, if_false]
  rw [hnd]

theorem noteOff_voices_subset (s : EngineState) (id : ℚ) :
    ∀ e ∈ (noteOff s id).voices, e ∈ s.voices := by
  intro e he
  unfold noteOff at he
  split at he
  · exact he
  · split at he
    · exact he
    · split at he
      · exact he
      · exact (mem_mapDelete he).1

theorem noteOff_WF {s : EngineState} (id : ℚ) (hwf : WF s) :
    WF (noteOff s id) := by
  intro e he
  rw [noteOff_nodes_length]
  exact hwf e (noteOff_voices_subset s id e he)

theorem noteOff_voices_eq_mapDelete (s : EngineState) (id : ℚ)
    (hinit : s.isInit = true) (hwf : WF s) :
    (noteOff s id).voices = mapDelete s.voices id := by
  rcases h : mapGet s.voices id with _ | idx
  · rw [noteOff_not_found s id h,
      mapDelete_eq_self ((mapGet_eq_none_iff s.voices id).mp h)]
  · have hlt : idx < s.nodes.length := hwf _ (mapGet_some_mem h)
    rw [noteOff_found s id idx (s.nodes.get ⟨idx, hlt⟩) hinit h (List.get?_eq_get hlt)]

theorem noteOn_isInit (s : EngineState) (f id : ℚ) :
    (noteOn s f id).isInit = s.isInit := by
  unfold noteOn
  split
  · rfl
  · simp [noteOff_isInit]

theorem noteOn_voices (s : EngineState) (f id : ℚ) (hinit : s.isInit = true) :
    (noteOn s f id).voices =
      mapSet (noteOff s id).voices id (noteOff s id).nodes.length := by
  unfold noteOn
  simp [hinit]

theorem noteOn_nodes_length (s : EngineState) (f id : ℚ) (hinit : s.isInit = true) :
    (noteOn s f id).nodes.length = s.nodes.length + 1 := by
  unfold noteOn
  simp [hinit, noteOff_nodes_length]

theorem foldl_noteOff_voices (ids : List ℚ) :
    ∀ s : EngineState, s.isInit = true → WF s →
      (∀ e ∈ s.voices, e.1 ∈ ids) → (ids.foldl noteOff s).voices = [] := by
  induction ids with
  | nil =>
    intro s _ _ hsub
    rcases hv : s.voices with _ | ⟨e, rest⟩
    · simpa using hv
    · exact absurd (hsub e (by rw [hv]; exact List.mem_cons_self _ _)) (List.not_mem_nil _)
  | cons k rest ih =>
    intro s hinit hwf hsub
    rw [List.foldl_cons]
    refine ih (noteOff s k) (by rw [noteOff_isInit]; exact hinit) (noteOff_WF k hwf) ?_
    intro e he
    rw [noteOff_voices_eq_mapDelete s k hinit hwf] at he
    rcases mem_mapDelete he with ⟨hmem, hne⟩
    rcases List.mem_cons.mp (hsub e hmem) with h | h
    · exact absurd h hne
    · exact h

theorem foldl_noteOff_uninit (s : EngineState) (h : s.isInit = false) (ids : List ℚ) :
    ids.foldl noteOff s = s := by
  induction ids with
  | nil => rfl
  | cons k rest ih => rw [List.foldl_cons, noteOff_uninit s k h, ih]

/-! ### A closed form for `setConfig` -/

/-- Rewriting `setConfig` as a single record update, by exhausting its four
guard conditions.  (In the envelope case the nested merge line merges the
caller's partial with itself — `envMerge pe pe` — which is the C1 slip.) -/
theorem setConfig_eq (s : EngineState) (p : PartialSynthConfig) :
    setConfig s p =
      { s with
        heap := match p.envelope with
          | some pe => (s.heap ++ [pe]) ++ [envMerge pe pe]
          | none => s.heap
        config :=
          { waveform := p.waveform.getD s.config.waveform
            gain := p.gain.getD s.config.gain
            filterType := p.filterType.getD s.config.filterType
            filterCutoff := p.filterCutoff.getD s.config.filterCutoff
            filterResonance := p.filterResonance.getD s.config.filterResonance
            envelope := match p.envelope with
              | some _ => s.heap.length + 1
              | none => s.config.envelope
            reverbMix := p.reverbMix.getD s.config.reverbMix
            reverbDecay := p.reverbDecay.getD s.config.reverbDecay
            reverbDamping := p.reverbDamping.getD s.config.reverbDamping }
        masterGainValue :=
          if s.isInit then some (p.gain.getD s.config.gain) else s.masterGainValue
        filterTypeValue :=
          if s.isInit then some (p.filterType.getD s.config.filterType) else s.filterTypeValue
        filterCutoffValue :=
          if s.isInit then some (p.filterCutoff.getD s.config.filterCutoff) else s.filterCutoffValue
        filterResonanceValue :=
          if s.isInit then some (p.filterResonance.getD s.config.filterResonance)
          else s.filterResonanceValue
        reverbDryGain :=
          if s.isInit && p.reverbMix.isSome then some (1 - p.reverbMix.getD s.config.reverbMix)
          else s.reverbDryGain
        reverbWetGain :=
          if s.isInit && p.reverbMix.isSome then some (p.reverbMix.getD s.config.reverbMix)
          else s.reverbWetGain
        reverbFeedbacks :=
          if p.reverbDecay.isSome then
            s.reverbFeedbacks.map fun _ => 0.3 + (p.reverbDecay.getD s.config.reverbDecay) * 0.65
          else s.reverbFeedbacks
        reverbDampingFreqs :=
          if p.reverbDamping.isSome then
            s.reverbDampingFreqs.map fun _ =>
              20000 - (p.reverbDamping.getD s.config.reverbDamping) * 18000
          else s.reverbDampingFreqs } := by
  unfold setConfig
  cases hp : p.envelope <;>
    by_cases h1 : s.isInit = true <;>
      by_cases h2 : p.reverbMix.isSome <;>
        by_cases h3 : p.reverbDecay.isSome <;>
          by_cases h4 : p.reverbDamping.isSome <;>
            simp [h1, h2, h3, h4, List.get?_concat_length, Bool.not_eq_true]

theorem setConfig_isInit (s : EngineState) (p : PartialSynthConfig) :
    (setConfig s p).isInit = s.isInit := by
  rw [setConfig_eq]

theorem setConfig_gain (s : EngineState) (p : PartialSynthConfig) :
    (setConfig s p).config.gain = p.gain.getD s.config.gain := by
  rw [setConfig_eq]

theorem setConfig_reverbFeedbacks (s : EngineState) (p : PartialSynthConfig) :
    (setConfig s p).reverbFeedbacks =
      if p.reverbDecay.isSome then
        s.reverbFeedbacks.map fun _ => 0.3 + (p.reverbDecay.getD s.config.reverbDecay) * 0.65
      else s.reverbFeedbacks := by
  rw [setConfig_eq]

theorem setConfig_reverbDampingFreqs (s : EngineState) (p : PartialSynthConfig) :
    (setConfig s p).reverbDampingFreqs =
      if p.reverbDamping.isSome then
        s.reverbDampingFreqs.map fun _ =>
          20000 - (p.reverbDamping.getD s.config.reverbDamping) * 18000
      else s.reverbDampingFreqs := by
  rw [setConfig_eq]

theorem setConfig_reverbDryGain (s : EngineState) (p : PartialSynthConfig) :
    (setConfig s p).reverbDryGain =
      if s.isInit && p.reverbMix.isSome then
        some (1 - p.reverbMix.getD s.config.reverbMix)
      else s.reverbDryGain := by
  rw [setConfig_eq]

theorem setConfig_reverbWetGain (s : EngineState) (p : PartialSynthConfig) :
    (setConfig s p).reverbWetGain =
      if s.isInit && p.reverbMix.isSome then
        some (p.reverbMix.getD s.config.reverbMix)
      else s.reverbWetGain := by
  rw [setConfig_eq]

theorem setConfig_masterGainValue_uninit (s : EngineState) (p : PartialSynthConfig)
    (h : s.isInit = false) :
    (setConfig s p).masterGainValue = s.masterGainValue := by
  rw [setConfig_eq]
  simp [h]

theorem setConfig_filterCutoffValue_uninit (s : EngineState) (p : PartialSynthConfig)
    (h : s.isInit = false) :
    (setConfig s p).filterCutoffValue = s.filterCutoffValue := by
  rw [setConfig_eq]
  simp [h]

/-! ### The claims -/

/-- C1: (code bug).  The claim says `setConfig({envelope:{attack:0.2}})`
leaves `decay`, `sustain`, `release` at their prior values.  The code does
not: `this.config = { ...this.config, ...config }` installs the caller's
partial object as the entire envelope, so the subsequent
`this.config.envelope = { ...this.config.envelope, ...config.envelope }`
merges the partial with itself and the siblings come out undefined.  This
theorem evaluates the engine at the failing input: before the call the
envelope is the full default, afterwards only `attack` is defined. -/
theorem C1_setConfig_envelope_partial_drops_siblings :
    currentEnv readyEngine =
      { attack := some 0.01, decay := some 0.1, sustain := some 0.7, release := some 0.3 } ∧
    currentEnv (setConfig readyEngine attackOnlyUpdate) =
      { attack := some 0.2, decay := none, sustain := none, release := none } := by
  exact ⟨by with_unfolding_all decide, by with_unfolding_all decide⟩

/-- C2: (counterexample).  The claim says no mutation of the value
returned by `getConfig` — including its nested envelope record — can change
the engine's configuration.  But `{ ...this.config }` is a shallow copy and
shares the envelope object: assigning `attack = 0.9` through the returned
envelope changes what the engine itself observes afterwards. -/
theorem C2_counterexample_envelope_alias :
    (currentEnv (callerSetEnvAttack readyEngine (getConfig readyEngine).envelope 0.9)).attack
      = some 0.9 ∧
    (currentEnv readyEngine).attack = some 0.01 := by
  exact ⟨by with_unfolding_all decide, by with_unfolding_all decide⟩

/-- C2: (amended).  `getConfig` returns a shallow copy: it leaves the
engine untouched and its top-level fields are primitive value copies, but the
`envelope` field of the returned record is the engine's own envelope
reference, so a caller assigning through it changes the configuration a later
`getConfig` reports. -/
theorem C2_getConfig_shallow_copy (s : EngineState) (v : ℚ) (e : EnvObj)
    (h : s.heap.get? s.config.envelope = some e) :
    (getConfig s).envelope = s.config.envelope ∧
    currentEnv (callerSetEnvAttack s (getConfig s).envelope v) = { e with attack := some v } := by
  refine ⟨rfl, ?_⟩
  have hlt : s.config.envelope < s.heap.length := by
    rcases List.get?_eq_some.mp h with ⟨hl, _⟩
    exact hl
  show currentEnv (callerSetEnvAttack s s.config.envelope v) = _
  unfold callerSetEnvAttack
  rw [h]
  unfold currentEnv
  simp [List.getElem?_set_eq_of_lt _ hlt]

theorem C2_getConfig_shallow_copy_witness :
    (getConfig readyEngine).envelope = readyEngine.config.envelope ∧
    currentEnv (callerSetEnvAttack readyEngine (getConfig readyEngine).envelope 0.9) =
      { defaultEnvelope with attack := some 0.9 } :=
  C2_getConfig_shallow_copy readyEngine 0.9 defaultEnvelope (by with_unfolding_all decide)

/-- C6: (counterexample).  The claim says every engine call before
`initialize`, `setConfig` included, leaves all engine state unchanged.  But
`setConfig` unconditionally replaces the stored configuration: on a fresh
uninitialized engine, `setConfig({gain: 0.5})` changes the gain `getConfig`
reports from its default 0.3 to 0.5. -/
theorem C6_counterexample_setConfig_before_init :
    (getConfig (setConfig initialState { gain := some 0.5 })).gain = 0.5 ∧
    (getConfig initialState).gain = 0.3 := by
  exact ⟨by with_unfolding_all decide, by with_unfolding_all decide⟩

/-- C6: (amended).  Before initialization no engine call throws;
`noteOn`, `noteOff` and `panic` really are no-ops (`noteOn` also logs a
warning), and `setConfig` skips every live-node update (master gain, filter,
dry/wet, feedback and damping values stay put) — but it does update the
stored configuration, which is observable through `getConfig`. -/
theorem C6_uninit_call_semantics (s : EngineState) (f id : ℚ) (p : PartialSynthConfig)
    (hinit : s.isInit = false) (hfb : s.reverbFeedbacks = [])
    (hdf : s.reverbDampingFreqs = []) :
    noteOn s f id = s ∧
    noteOff s id = s ∧
    panic s = s ∧
    (setConfig s p).isInit = false ∧
    (setConfig s p).masterGainValue = s.masterGainValue ∧
    (setConfig s p).filterCutoffValue = s.filterCutoffValue ∧
    (setConfig s p).reverbDryGain = s.reverbDryGain ∧
    (setConfig s p).reverbWetGain = s.reverbWetGain ∧
    (setConfig s p).reverbFeedbacks = s.reverbFeedbacks ∧
    (setConfig s p).reverbDampingFreqs = s.reverbDampingFreqs ∧
    (getConfig (setConfig s p)).gain = p.gain.getD s.config.gain := by
  refine ⟨?_, noteOff_uninit s id hinit, foldl_noteOff_uninit s hinit _,
    (setConfig_isInit s p).trans hinit,
    setConfig_masterGainValue_uninit s p hinit,
    setConfig_filterCutoffValue_uninit s p hinit, ?_, ?_, ?_, ?_, setConfig_gain s p⟩
  · unfold noteOn
    simp [hinit]
  · rw [setConfig_reverbDryGain, hinit]
    simp
  · rw [setConfig_reverbWetGain, hinit]
    simp
  · rw [setConfig_reverbFeedbacks, hfb]
    simp
  · rw [setConfig_reverbDampingFreqs, hdf]
    simp

theorem C6_uninit_call_semantics_witness :
    noteOn initialState 440 69 = initialState ∧
    noteOff initialState 69 = initialState ∧
    panic initialState = initialState ∧
    (setConfig initialState { gain := some 0.5 }).isInit = false ∧
    (setConfig initialState { gain := some 0.5 }).masterGainValue = initialState.masterGainValue ∧
    (setConfig initialState { gain := some 0.5 }).filterCutoffValue = initialState.filterCutoffValue ∧
    (setConfig initialState { gain := some 0.5 }).reverbDryGain = initialState.reverbDryGain ∧
    (setConfig initialState { gain := some 0.5 }).reverbWetGain = initialState.reverbWetGain ∧
    (setConfig initialState { gain := some 0.5 }).reverbFeedbacks = initialState.reverbFeedbacks ∧
    (setConfig initialState { gain := some 0.5 }).reverbDampingFreqs = initialState.reverbDampingFreqs ∧
    (getConfig (setConfig initialState { gain := some 0.5 })).gain =
      (some (0.5 : ℚ)).getD initialState.config.gain :=
  C6_uninit_call_semantics initialState 440 69 { gain := some 0.5 } rfl rfl rfl

/-- C7:.  The reverb parameter mappings: established by `initialize` from
the stored configuration and preserved by every `setConfig`; there are 4 ≥ 3
delay lines; a `setConfig` carrying only `reverbMix` leaves every line's
feedback gain and damping cutoff untouched. -/
theorem C7_reverb_parameter_mapping :
    3 ≤ delayTimes.length ∧
    (∀ s : EngineState, s.isInit = false → ReverbInv (initEngine s)) ∧
    (∀ (s : EngineState) (p : PartialSynthConfig), ReverbInv s → ReverbInv (setConfig s p)) ∧
    (∀ (s : EngineState) (m : ℚ),
      (setConfig s { reverbMix := some m }).reverbFeedbacks = s.reverbFeedbacks ∧
      (setConfig s { reverbMix := some m }).reverbDampingFreqs = s.reverbDampingFreqs) := by
  refine ⟨by decide, ?_, ?_, ?_⟩
  · intro s h
    intro _
    unfold initEngine
    rw [h]
    simp
  · intro s p hInv hinit'
    have hinit : s.isInit = true := by
      rw [setConfig_isInit] at hinit'
      exact hinit'
    obtain ⟨hfb, hdf, hdry, hwet⟩ := hInv hinit
    rw [setConfig_eq]
    refine ⟨?_, ?_, ?_, ?_⟩
    · cases hd : p.reverbDecay with
      | none => simp [hd, hfb]
      | some d => simp [hd, hfb, List.map_map, Function.comp]
    · cases hd : p.reverbDamping with
      | none => simp [hd, hdf]
      | some d => simp [hd, hdf, List.map_map, Function.comp]
    · cases hm : p.reverbMix with
      | none => simp [hm, hdry]
      | some m => simp [hm, hinit]
    · cases hm : p.reverbMix with
      | none => simp [hm, hwet]
      | some m => simp [hm, hinit]
  · intro s m
    constructor
    · rw [setConfig_reverbFeedbacks]
      simp
    · rw [setConfig_reverbDampingFreqs]
      simp

theorem C7_reverb_parameter_mapping_witness :
    (initEngine initialState).reverbFeedbacks =
      delayTimes.map (fun _ => 0.3 + (initEngine initialState).config.reverbDecay * 0.65) ∧
    (setConfig readyEngine { reverbMix := some 0.5 }).reverbFeedbacks =
      readyEngine.reverbFeedbacks :=
  ⟨(C7_reverb_parameter_mapping.2.1 initialState rfl rfl).1,
   (C7_reverb_parameter_mapping.2.2.2 readyEngine 0.5).1⟩

/-- C8:.  `midiToFrequency 69 = 440` exactly, and the round trip
`frequencyToApproxMidi (midiToFrequency n) = n` holds exactly over ℝ for every
integer MIDI number `n ≤ 127` (exactness subsumes the claim's floating-point
tolerance).  `frequencyToApproxMidi` is spec-modelled: it appears only in
spec.md, nowhere under src/. -/
theorem C8_midi_frequency_roundtrip :
    midiToFrequency 69 = 440 ∧
    ∀ n : ℕ, n ≤ 127 → frequencyToApproxMidi (midiToFrequency n) = n := by
  constructor
  · unfold midiToFrequency
    norm_num
  · intro n _
    unfold midiToFrequency frequencyToApproxMidi
    have h1 : (440 : ℝ) * 2 ^ (((n : ℝ) - 69) / 12) / 440 = 2 ^ (((n : ℝ) - 69) / 12) := by
      field_simp
    rw [h1, Real.logb_rpow (by norm_num) (by norm_num)]
    ring

theorem C8_midi_frequency_roundtrip_witness :
    frequencyToApproxMidi (midiToFrequency ((60 : ℕ) : ℝ)) = ((60 : ℕ) : ℝ) :=
  C8_midi_frequency_roundtrip.2 60 (by norm_num)

/-- C9: (counterexample).  The claim says the kick's 10 ms click transient
has HIGHER amplitude than the body tone; in the code the click's gain starts
at 0.3 while the body's starts at 1, so at the concrete trigger time 0 the
click peaks LOWER than the body. -/
theorem C9_counterexample_click_peak_below_body :
    peakLevel (playKick 0).click.gainEvents < peakLevel (playKick 0).body.gainEvents := by
  with_unfolding_all decide

/-- C9: (amended).  Triggering a kick at any time `now` schedules a sine
body whose frequency ramps exponentially 150 → 50 Hz over 50 ms, amplitude
decaying exponentially from 1 to near-silence (0.01) over 0.4 s, layered with
a 10 ms click transient of LOWER peak amplitude (0.3) than the body; both
generators are scheduled to stop within the hit's fixed 0.4 s duration
(click at `now + 0.02`, body at `now + 0.4`). -/
theorem C9_playKick_structure (now : ℚ) :
    (playKick now).body.waveform = WaveformType.sine ∧
    (playKick now).body.freqEvents =
      [DrumEvent.setValue 150 now, DrumEvent.expRamp 50 (now + 0.05)] ∧
    (playKick now).body.gainEvents =
      [DrumEvent.setValue 1 now, DrumEvent.expRamp 0.01 (now + 0.4)] ∧
    (playKick now).body.stopTime = some (now + 0.4) ∧
    (playKick now).click.gainEvents =
      [DrumEvent.setValue 0.3 now, DrumEvent.expRamp 0.01 (now + 0.01)] ∧
    (playKick now).click.stopTime = some (now + 0.02) ∧
    peakLevel (playKick now).click.gainEvents < peakLevel (playKick now).body.gainEvents ∧
    now + 0.02 ≤ now + 0.4 := by
  refine ⟨rfl, rfl, rfl, rfl, rfl, rfl, ?_, ?_⟩
  · show (0.3 : ℚ) < 1
    norm_num
  · have : (0.02 : ℚ) ≤ 0.4 := by norm_num
    linarith

/-! ### Helper lemmas for the voice-lifecycle claims -/

theorem noteOn_init_eq (s : EngineState) (f id : ℚ) (hinit : s.isInit = true) :
    noteOn s f id =
      { noteOff s id with
        nodes := (noteOff s id).nodes ++ [freshVoice (noteOff s id) f]
        voices := mapSet (noteOff s id).voices id (noteOff s id).nodes.length } := by
  simp [noteOn, hinit]

theorem noteOn_nodes_get_last (s : EngineState) (f id : ℚ) (hinit : s.isInit = true) :
    (noteOn s f id).nodes.get? (noteOff s id).nodes.length =
      some (freshVoice (noteOff s id) f) := by
  rw [noteOn_init_eq s f id hinit]
  exact List.get?_concat_length _ _

theorem noteOn_registers (s : EngineState) (f id : ℚ) (hinit : s.isInit = true) :
    mapGet (noteOn s f id).voices id = some (noteOff s id).nodes.length := by
  rw [noteOn_voices s f id hinit]
  exact mapGet_mapSet_self _ _ _

theorem noteOn_then_noteOff_clears (s : EngineState) (f id : ℚ) (hinit : s.isInit = true) :
    mapGet (noteOff (noteOn s f id) id).voices id = none := by
  have hinit' : (noteOn s f id).isInit = true := by
    rw [noteOn_isInit]
    exact hinit
  rw [noteOff_found (noteOn s f id) id _ _ hinit' (noteOn_registers s f id hinit)
    (noteOn_nodes_get_last s f id hinit)]
  exact mapGet_mapDelete_self _ _

/-! ### Claims C3, C4, C5, C10 -/

/-- C3: (counterexample).  In the concrete retrigger scenario — id 69
triggered at time 0, retriggered at time 0.1 — the first voice's generator
(node 0) is NOT stopped at the retrigger instant 0.1: it is scheduled to stop
only at 0.41 (= 0.1 + release + 0.01), and at time 0.2 it still contributes
amplitude 2/3 (its release ramp) while the new generator (node 1) contributes
0.73, i.e. two generators for id 69 are audible at once beyond the new
trigger's attack ramp. -/
theorem C3_counterexample_retrigger_overlap :
    mapGet retrigFirst.voices 69 = some 0 ∧
    mapGet retrigSecond.voices 69 = some 1 ∧
    (retrigSecond.nodes.get? 0).map (fun nd => nd.osc.stopTime) = some (some 0.41) ∧
    (retrigSecond.nodes.get? 0).map (fun nd => nd.amplitudeAt 0.2) = some (2/3) ∧
    (retrigSecond.nodes.get? 1).map (fun nd => nd.amplitudeAt 0.2) = some (73/100) := by
  refine ⟨?_, ?_, ?_, ?_, ?_⟩ <;> with_unfolding_all decide

/-- C3: (amended).  A second `noteOn` for an id that already holds a voice
retires the prior voice through `noteOff`, not an immediate stop: the prior
voice's pending ramps are cancelled and replaced by a linear release ramp
from its captured amplitude to 0 over the configured release time, its
generator is scheduled to stop `release + 0.01` seconds after the retrigger
instant, and the registry is left with exactly one entry for the id (the new
voice) — while the old generator's release tail may still sound alongside
the new attack. -/
theorem C3_retrigger_via_release (s : EngineState) (f id : ℚ) (idx : Nat) (nd : VoiceNodes)
    (hinit : s.isInit = true) (hget : mapGet s.voices id = some idx)
    (hnd : s.nodes.get? idx = some nd) :
    (noteOn s f id).nodes.get? idx =
      some (releasedNode nd s.currentTime ((currentEnv s).release.getD 0)) ∧
    mapGet (noteOn s f id).voices id = some s.nodes.length ∧
    countKey (noteOn s f id).voices id = 1 := by
  have hlt : idx < s.nodes.length := by
    rcases List.get?_eq_some.mp hnd with ⟨hl, _⟩
    exact hl
  have hOff := noteOff_found s id idx nd hinit hget hnd
  refine ⟨?_, ?_, ?_⟩
  · rw [noteOn_init_eq s f id hinit, hOff]
    show ((s.nodes.set idx _ ++ [_]).get? idx) = _
    rw [List.get?_append (by simpa using hlt)]
    exact List.get?_set_eq_of_lt _ (by simpa using hlt)
  · rw [noteOn_registers s f id hinit, noteOff_nodes_length]
  · rw [noteOn_voices s f id hinit, hOff]
    exact countKey_one_of_set_delete _ _ _

theorem C3_retrigger_via_release_witness :
    (noteOn (tick retrigFirst 0.1) 440 69).nodes.get? 0 =
      some (releasedNode firstVoiceNode (tick retrigFirst 0.1).currentTime
        ((currentEnv (tick retrigFirst 0.1)).release.getD 0)) ∧
    mapGet (noteOn (tick retrigFirst 0.1) 440 69).voices 69 =
      some (tick retrigFirst 0.1).nodes.length ∧
    countKey (noteOn (tick retrigFirst 0.1) 440 69).voices 69 = 1 :=
  C3_retrigger_via_release (tick retrigFirst 0.1) 440 69 0 firstVoiceNode
    (by with_unfolding_all decide) (by with_unfolding_all decide)
    (by with_unfolding_all decide)

/-- C4:.  `noteOff` semantics: (a) a no-op when no voice holds the id;
(b) on an initialized engine holding the id, it cancels that voice's pending
scheduled ramps, schedules a linear ramp from the captured instantaneous
amplitude to 0 over the configured release and stops the generator 10 ms
after the ramp ends, and removes the registry entry synchronously;
(c) `noteOn` immediately followed by `noteOff` leaves no registry entry. -/
theorem C4_noteOff_semantics :
    (∀ (s : EngineState) (id : ℚ), mapGet s.voices id = none → noteOff s id = s) ∧
    (∀ (s : EngineState) (id : ℚ) (idx : Nat) (nd : VoiceNodes),
      s.isInit = true → mapGet s.voices id = some idx → s.nodes.get? idx = some nd →
      noteOff s id =
        { s with
          nodes := s.nodes.set idx
            (releasedNode nd s.currentTime ((currentEnv s).release.getD 0))
          voices := mapDelete s.voices id } ∧
      (releasedNode nd s.currentTime ((currentEnv s).release.getD 0)).gainEvents =
        cancelFrom s.currentTime nd.gainEvents ++
          [AutoEvent.setValue
            (valueAt nd.gainBase 0 (cancelFrom s.currentTime nd.gainEvents) s.currentTime)
            s.currentTime,
           AutoEvent.linearRamp 0 (s.currentTime + (currentEnv s).release.getD 0)] ∧
      (releasedNode nd s.currentTime ((currentEnv s).release.getD 0)).osc.stopTime =
        some (s.currentTime + (currentEnv s).release.getD 0 + 0.01) ∧
      mapGet (noteOff s id).voices id = none) ∧
    (∀ (s : EngineState) (f id : ℚ), s.isInit = true →
      mapGet (noteOff (noteOn s f id) id).voices id = none) := by
  refine ⟨noteOff_not_found, ?_, noteOn_then_noteOff_clears⟩
  intro s id idx nd hinit hget hnd
  have hOff := noteOff_found s id idx nd hinit hget hnd
  refine ⟨hOff, rfl, rfl, ?_⟩
  rw [hOff]
  exact mapGet_mapDelete_self _ _

theorem C4_noteOff_semantics_witness :
    noteOff initialState 1 = initialState ∧
    noteOff retrigFirst 69 =
      { retrigFirst with
        nodes := retrigFirst.nodes.set 0
          (releasedNode firstVoiceNode retrigFirst.currentTime
            ((currentEnv retrigFirst).release.getD 0))
        voices := mapDelete retrigFirst.voices 69 } ∧
    mapGet (noteOff (noteOn readyEngine 440 69) 69).voices 69 = none :=
  ⟨C4_noteOff_semantics.1 initialState 1 (by with_unfolding_all decide),
   (C4_noteOff_semantics.2.1 retrigFirst 69 0 firstVoiceNode
     (by with_unfolding_all decide) (by with_unfolding_all decide)
     (by with_unfolding_all decide)).1,
   C4_noteOff_semantics.2.2 readyEngine 440 69 (by with_unfolding_all decide)⟩

/-- C5:.  `panic` is by definition `noteOff` folded over every registered
voice id; on an initialized engine with a well-formed registry it leaves zero
registry entries (whatever number of voices `noteOn` registered), it is
idempotent, and with zero active voices it changes nothing (in particular it
does not throw — it is total). -/
theorem C5_panic_semantics (s : EngineState) (hinit : s.isInit = true) (hwf : WF s) :
    panic s = (s.voices.map Prod.fst).foldl noteOff s ∧
    (panic s).voices = [] ∧
    panic (panic s) = panic s ∧
    (s.voices = [] → panic s = s) := by
  have hempty : (panic s).voices = [] :=
    foldl_noteOff_voices _ s hinit hwf fun e he => List.mem_map_of_mem _ he
  refine ⟨rfl, hempty, ?_, ?_⟩
  · show ((panic s).voices.map Prod.fst).foldl noteOff (panic s) = panic s
    rw [hempty]
    rfl
  · intro h
    show (s.voices.map Prod.fst).foldl noteOff s = s
    rw [h]
    rfl

theorem C5_panic_semantics_witness :
    panic twoVoices = (twoVoices.voices.map Prod.fst).foldl noteOff twoVoices ∧
    (panic twoVoices).voices = [] ∧
    panic (panic twoVoices) = panic twoVoices ∧
    (twoVoices.voices = [] → panic twoVoices = twoVoices) :=
  C5_panic_semantics twoVoices (by with_unfolding_all decide)
    (by with_unfolding_all decide)

/-- C10:.  `noteOn` called without an explicit id registers the voice
under the frequency value itself (`noteId = frequency` default): a second
such call for the same frequency retriggers that entry, leaving exactly one
registry entry for the key (held by the newest generator), and
`noteOff(frequency)` then removes it. -/
theorem C10_default_id_is_frequency (s : EngineState) (f : ℚ) (hinit : s.isInit = true) :
    noteOnDefault s f = noteOn s f f ∧
    mapGet (noteOnDefault s f).voices f = some (noteOff s f).nodes.length ∧
    countKey (noteOnDefault (noteOnDefault s f) f).voices f = 1 ∧
    mapGet (noteOff (noteOnDefault (noteOnDefault s f) f) f).voices f = none := by
  have hinit1 : (noteOn s f f).isInit = true := by
    rw [noteOn_isInit]
    exact hinit
  refine ⟨rfl, noteOn_registers s f f hinit, ?_, ?_⟩
  · show countKey (noteOn (noteOn s f f) f f).voices f = 1
    rw [noteOn_voices (noteOn s f f) f f hinit1,
      noteOff_found (noteOn s f f) f _ _ hinit1 (noteOn_registers s f f hinit)
        (noteOn_nodes_get_last s f f hinit)]
    exact countKey_one_of_set_delete _ _ _
  · exact noteOn_then_noteOff_clears (noteOn s f f) f f hinit1

theorem C10_default_id_is_frequency_witness :
    noteOnDefault readyEngine 440 = noteOn readyEngine 440 440 ∧
    mapGet (noteOnDefault readyEngine 440).voices 440 =
      some (noteOff readyEngine 440).nodes.length ∧
    countKey (noteOnDefault (noteOnDefault readyEngine 440) 440).voices 440 = 1 ∧
    mapGet (noteOff (noteOnDefault (noteOnDefault readyEngine 440) 440) 440).voices 440
      = none :=
  C10_default_id_is_frequency readyEngine 440 (by with_unfolding_all decide)

end SynthLab
